import Mathlib

/-
Verification of the deploy-construction core of the casper-clarity SDK
(packages/sdk/src/lib/DeployUtil.ts and the CL Option encoder).

Byte sequences are modelled as lists of naturals (each element a byte
value below 256).  TypeScript strings that are only ever serialized
(chain name, entry point, contract name) are modelled directly by their
UTF-8 byte lists; argument-map keys, which are only ever compared for
equality, keep the Lean String type.  Fallible TypeScript code (throw)
is modelled with Except.
-/

namespace Casper

/-- Byte sequences (Uint8Array / ByteArray in the source). -/
abbrev Bytes := List Nat

/-! ## Byte-representation helpers

The helpers below come from the repository module byterepr, which is not
part of the provided sources; they are modelled from the spec, section
4.1: all multi-byte integers little-endian with a fixed width per field,
variable-length sequences length-prefixed by an unsigned 32-bit count,
fixed-size 32-byte hashes raw without a prefix, lists as a 32-bit count
followed by each element's encoding in order. -/

/-- Modelled from the spec: fixed-width little-endian rendering of a
natural number, one byte per position. -/
def toBytesLE (width n : Nat) : Bytes :=
  (List.range width).map (fun i => n / 256 ^ i % 256)

/-- Modelled from the spec: unsigned 64-bit little-endian integer. -/
def toBytesU64 (n : Nat) : Bytes := toBytesLE 8 n

/-- Modelled from the spec: unsigned 32-bit little-endian integer. -/
def toBytesU32 (n : Nat) : Bytes := toBytesLE 4 n

/-- Modelled from the spec: a fixed-size byte array is encoded raw,
without a length prefix. -/
def toBytesBytesArray (bs : Bytes) : Bytes := bs

/-- Modelled from the spec: a 32-byte deploy hash is encoded raw. -/
def toBytesDeployHash (bs : Bytes) : Bytes := toBytesBytesArray bs

/-- Modelled from the spec: a variable-length byte sequence is encoded
as an unsigned 32-bit count followed by the raw bytes. -/
def toBytesArrayU8 (bs : Bytes) : Bytes := toBytesU32 bs.length ++ bs

/-- Modelled from the spec: a string is encoded as an unsigned 32-bit
byte-length prefix followed by its UTF-8 bytes.  Strings that are only
serialized are modelled by their UTF-8 byte lists, so this is the same
layout as toBytesArrayU8. -/
def toBytesString (s : Bytes) : Bytes := toBytesU32 s.length ++ s

/-- Modelled from the spec: a list of encodable elements is encoded as
an unsigned 32-bit count followed by each element's encoding in list
order. -/
def toBytesVecT (enc : α → Bytes) (xs : List α) : Bytes :=
  toBytesU32 xs.length ++ xs.flatMap enc

/-- Modelled from the repository Conversions module (not under the
provided sources): base-16 rendering of a byte list, two hex digits per
byte.  The digit values stand for the hex characters; the character
table is a bijection on digit values, so equality of renderings is
preserved. -/
def encodeBase16 (bs : Bytes) : List Nat :=
  bs.flatMap (fun b => [b / 16, b % 16])

/-! ## Keys and crypto primitives (external collaborators) -/

/-- The two supported signature algorithms (Keys module). -/
inductive SignatureAlgorithm where
  | ed25519
  | secp256k1

/-- Modelled from the spec: public keys and signatures are rendered
algorithm-tagged, so a verifier can recover the algorithm. -/
def algTag : SignatureAlgorithm → Nat
  | .ed25519 => 1
  | .secp256k1 => 2

/-- Modelled from the spec: the algorithm-tagged hex rendering used for
signers and signatures (Keys.Ed25519.accountHex / Keys.Secp256K1.accountHex). -/
def accountHexOf (alg : SignatureAlgorithm) (bs : Bytes) : List Nat :=
  algTag alg :: encodeBase16 bs

/-- Modelled from the spec: a public key is variable-length raw key
material tagged with its algorithm.  The account hash is derived by an
external digest primitive, so it is carried as opaque data. -/
structure PublicKey where
  alg : SignatureAlgorithm
  raw : Bytes
  accountHash : Bytes

/-- Modelled from the spec: the public key's own canonical encoding,
algorithm tag followed by the raw key bytes. -/
def PublicKey.toBytes (p : PublicKey) : Bytes := algTag p.alg :: p.raw

/-- Modelled from the spec: the algorithm-tagged hex rendering of a
public key (PublicKey.toAccountHex). -/
def PublicKey.toAccountHex (p : PublicKey) : List Nat :=
  accountHexOf p.alg p.raw

/-- Modelled from the spec: an unforgeable purse reference, consumed as
opaque data. -/
structure URef where
  data : Bytes

/-- Modelled from the spec: a signing key pair (Keys.AsymmetricKey),
with the external signing primitive carried as a function. -/
structure AsymmetricKey where
  publicKey : PublicKey
  signFn : Bytes → Bytes

/-! ## CL typed values (external argument-value system)

The CLValue module is repository code not under the provided sources;
the minimal fragment used by DeployUtil is modelled from the spec: a
typed, self-serializing value system consumed only through its
serialize contract. -/

/-- Modelled from the spec: CL type descriptors (CLType / CLTypeHelper). -/
inductive CLType where
  | u32
  | u64
  | u512
  | uref
  | byteArray (n : Nat)
  | option (t : CLType)

/-- Modelled from the spec: typed self-serializing values
(CLTypedAndToBytes); only the constructors used by DeployUtil appear. -/
inductive CLTypedAndToBytes where
  | u32 (n : Nat)
  | u64 (n : Nat)

/-- Modelled from the spec: fixed-width little-endian serialization of
the numeric CL values. -/
def CLTypedAndToBytes.toBytes : CLTypedAndToBytes → Bytes
  | .u32 n => toBytesLE 4 n
  | .u64 n => toBytesLE 8 n

/-- Modelled from the spec: the type descriptor of a typed value. -/
def CLTypedAndToBytes.clType : CLTypedAndToBytes → CLType
  | .u32 _ => CLType.u32
  | .u64 _ => CLType.u64

/-- Discriminant byte for an absent optional value (option.ts). -/
def OPTION_TAG_NONE : Nat := 0

/-- Discriminant byte for a present optional value (option.ts). -/
def OPTION_TAG_SOME : Nat := 1

/-- The Option class of option.ts: a possibly-absent typed value
together with the type descriptor of the wrapped type.  Named CLOption
here because Option is taken by the Lean prelude. -/
structure CLOption where
  t : Option CLTypedAndToBytes
  innerType : CLType

/-- The Option constructor of option.ts: fails when the value is absent
and no inner type descriptor was supplied; when a value is present the
descriptor is taken from the value itself. -/
def CLOption.make (t : Option CLTypedAndToBytes) (innerType : Option CLType) :
    Except String CLOption :=
  match t with
  | none =>
    match innerType with
    | none => Except.error "You had to assign innerType for None"
    | some ty => Except.ok (CLOption.mk none ty)
  | some v => Except.ok (CLOption.mk (some v) v.clType)

/-- Option.toBytes of option.ts: the none tag alone, or the some tag
followed by the wrapped value's own serialization. -/
def CLOption.toBytes (o : CLOption) : Bytes :=
  match o.t with
  | none => [OPTION_TAG_NONE]
  | some v => OPTION_TAG_SOME :: v.toBytes

/-- Modelled from the spec: the CLValue factories used by the Transfer
constructor (CLValue.u512 / uref / byteArray / option). -/
inductive CLValue where
  | u512 (n : Nat)
  | uref (u : URef)
  | byteArray (bs : Bytes)
  | option (t : Option CLTypedAndToBytes) (ty : CLType)

/-- Modelled from the spec: a stand-in serialization for CLValue,
consumed opaquely by the argument-map encoding.  The u512 rendering is
a minimal-length little-endian integer preceded by its byte count; the
optional value follows the presence-byte layout of the Option encoder. -/
def CLValue.toBytes : CLValue → Bytes
  | .u512 n =>
    let le := (toBytesLE 64 n).reverse.dropWhile (fun b => b = 0) |>.reverse
    le.length :: le
  | .uref u => u.data
  | .byteArray bs => bs
  | .option t _ =>
    match t with
    | none => [OPTION_TAG_NONE]
    | some v => OPTION_TAG_SOME :: v.toBytes

/-! ## Runtime arguments (external argument map) -/

/-- Modelled from the spec: insertion into an ordered name-to-value
map, replacing in place when the name is already present and appending
otherwise. -/
def insertArg : List (String × CLValue) → String → CLValue →
    List (String × CLValue)
  | [], n, v => [(n, v)]
  | (k, w) :: rest, n, v =>
    if k == n then (k, v) :: rest else (k, w) :: insertArg rest n v

/-- Modelled from the spec: the Argument Map (RuntimeArgs), an ordered
mapping from argument name to typed value. -/
structure RuntimeArgs where
  args : List (String × CLValue)

/-- RuntimeArgs.insert of the RuntimeArgs module. -/
def RuntimeArgs.insert (ra : RuntimeArgs) (n : String) (v : CLValue) :
    RuntimeArgs :=
  RuntimeArgs.mk (insertArg ra.args n v)

/-- Lookup by name, as used by getArgByName: absent when not found,
never failing. -/
def RuntimeArgs.get (ra : RuntimeArgs) (n : String) : Option CLValue :=
  (ra.args.find? (fun p => p.1 == n)).map (fun p => p.2)

/-- Modelled from the spec: the Argument Map's own serialization, an
unsigned 32-bit entry count followed by each name-value pair's
encoding in insertion order. -/
def RuntimeArgs.toBytes (ra : RuntimeArgs) : Bytes :=
  toBytesU32 ra.args.length ++
    ra.args.flatMap
      (fun p =>
        toBytesString (p.1.data.map Char.toNat) ++ p.2.toBytes)

/-! ## Executable deploy item variants (DeployUtil.ts) -/

/-- ModuleBytes: raw Wasm module bytes plus an argument map; tag 0. -/
structure ModuleBytes where
  moduleBytes : Bytes
  args : RuntimeArgs

/-- Discriminant tag of ModuleBytes. -/
def ModuleBytes.tag : Nat := 0

/-- ModuleBytes.toBytes: tag, length-prefixed module bytes,
length-prefixed serialized argument map. -/
def ModuleBytes.toBytes (m : ModuleBytes) : Bytes :=
  [ModuleBytes.tag] ++ toBytesArrayU8 m.moduleBytes ++
    toBytesArrayU8 m.args.toBytes

/-- StoredContractByHash: contract hash, entry point, arguments; tag 1. -/
structure StoredContractByHash where
  hash : Bytes
  entryPoint : Bytes
  args : RuntimeArgs

/-- Discriminant tag of StoredContractByHash. -/
def StoredContractByHash.tag : Nat := 1

/-- StoredContractByHash.toBytes: tag, raw hash, entry-point string,
length-prefixed serialized argument map. -/
def StoredContractByHash.toBytes (s : StoredContractByHash) : Bytes :=
  [StoredContractByHash.tag] ++ toBytesBytesArray s.hash ++
    toBytesString s.entryPoint ++ toBytesArrayU8 s.args.toBytes

/-- StoredContractByName: contract name, entry point, arguments; tag 2. -/
structure StoredContractByName where
  name : Bytes
  entryPoint : Bytes
  args : RuntimeArgs

/-- Discriminant tag of StoredContractByName. -/
def StoredContractByName.tag : Nat := 2

/-- StoredContractByName.toBytes: tag, name string, entry-point string,
length-prefixed serialized argument map. -/
def StoredContractByName.toBytes (s : StoredContractByName) : Bytes :=
  [StoredContractByName.tag] ++ toBytesString s.name ++
    toBytesString s.entryPoint ++ toBytesArrayU8 s.args.toBytes

/-- StoredVersionedContractByHash: contract hash, optional version,
entry point, arguments; tag 3. -/
structure StoredVersionedContractByHash where
  hash : Bytes
  version : Option Nat
  entryPoint : Bytes
  args : RuntimeArgs

/-- Discriminant tag of StoredVersionedContractByHash. -/
def StoredVersionedContractByHash.tag : Nat := 3

/-- StoredVersionedContractByHash.toBytes: tag, raw hash, the version
as an optional u32 through the Option encoder, entry-point string,
length-prefixed serialized argument map. -/
def StoredVersionedContractByHash.toBytes
    (s : StoredVersionedContractByHash) : Bytes :=
  let serializedVersion : CLOption :=
    match s.version with
    | none => CLOption.mk none CLType.u32
    | some v => CLOption.mk (some (CLTypedAndToBytes.u32 v)) CLType.u32
  [StoredVersionedContractByHash.tag] ++ toBytesBytesArray s.hash ++
    serializedVersion.toBytes ++ toBytesString s.entryPoint ++
    toBytesArrayU8 s.args.toBytes

/-- StoredVersionedContractByName: contract name, optional version,
entry point, arguments; tag 4. -/
structure StoredVersionedContractByName where
  name : Bytes
  version : Option Nat
  entryPoint : Bytes
  args : RuntimeArgs

/-- Discriminant tag of StoredVersionedContractByName. -/
def StoredVersionedContractByName.tag : Nat := 4

/-- StoredVersionedContractByName.toBytes: tag, name string, the
version as an optional u32 through the Option encoder, entry-point
string, length-prefixed serialized argument map. -/
def StoredVersionedContractByName.toBytes
    (s : StoredVersionedContractByName) : Bytes :=
  let serializedVersion : CLOption :=
    match s.version with
    | none => CLOption.mk none CLType.u32
    | some v => CLOption.mk (some (CLTypedAndToBytes.u32 v)) CLType.u32
  [StoredVersionedContractByName.tag] ++ toBytesString s.name ++
    serializedVersion.toBytes ++ toBytesString s.entryPoint ++
    toBytesArrayU8 s.args.toBytes

/-- Transfer: native transfer, all parameters in the argument map;
tag 5. -/
structure Transfer where
  args : RuntimeArgs

/-- Discriminant tag of Transfer. -/
def Transfer.tag : Nat := 5

/-- Transfer.toBytes: tag and the length-prefixed serialized argument
map, nothing else. -/
def Transfer.toBytes (t : Transfer) : Bytes :=
  [Transfer.tag] ++ toBytesArrayU8 t.args.toBytes

/-- The target of a native transfer: a purse reference or a public key
(the TypeScript union URef | PublicKey).  An absent target models a
call that supplied no usable target value. -/
inductive TransferTarget where
  | uref (u : URef)
  | publicKey (pk : PublicKey)

/-- The Transfer constructor: inserts the amount, the optional source
purse, the target (failing when none was supplied; a public-key target
is stored as its derived account hash), and the id, which is stored as
an explicit absent optional u64 when the id is omitted or falsy (zero). -/
def Transfer.make (amount : Nat) (target : Option TransferTarget)
    (sourcePurse : Option URef) (id : Option Nat) : Except String Transfer := do
  let runtimeArgs := RuntimeArgs.mk []
  let runtimeArgs := runtimeArgs.insert "amount" (CLValue.u512 amount)
  let runtimeArgs :=
    match sourcePurse with
    | some sp => runtimeArgs.insert "source" (CLValue.uref sp)
    | none => runtimeArgs
  let targetValue ←
    match target with
    | some (TransferTarget.uref u) => pure (CLValue.uref u)
    | some (TransferTarget.publicKey pk) =>
      pure (CLValue.byteArray pk.accountHash)
    | none => Except.error "Please specify target"
  let runtimeArgs := runtimeArgs.insert "target" targetValue
  let runtimeArgs :=
    match id with
    | none => runtimeArgs.insert "id" (CLValue.option none CLType.u64)
    | some v =>
      if v = 0 then
        runtimeArgs.insert "id" (CLValue.option none CLType.u64)
      else
        runtimeArgs.insert "id"
          (CLValue.option (some (CLTypedAndToBytes.u64 v)) CLType.u64)
  pure (Transfer.mk runtimeArgs)

/-- The closed union of the six execution-item variants
(ExecutableDeployItem subclasses). -/
inductive ExecutableDeployItem where
  | moduleBytes (m : ModuleBytes)
  | storedContractByHash (s : StoredContractByHash)
  | storedContractByName (s : StoredContractByName)
  | storedVersionedContractByHash (s : StoredVersionedContractByHash)
  | storedVersionedContractByName (s : StoredVersionedContractByName)
  | transfer (t : Transfer)

/-- The instance tag of an execution item. -/
def ExecutableDeployItem.tag : ExecutableDeployItem → Nat
  | .moduleBytes _ => ModuleBytes.tag
  | .storedContractByHash _ => StoredContractByHash.tag
  | .storedContractByName _ => StoredContractByName.tag
  | .storedVersionedContractByHash _ => StoredVersionedContractByHash.tag
  | .storedVersionedContractByName _ => StoredVersionedContractByName.tag
  | .transfer _ => Transfer.tag

/-- Dynamic dispatch of toBytes over the six variants. -/
def ExecutableDeployItem.toBytes : ExecutableDeployItem → Bytes
  | .moduleBytes m => m.toBytes
  | .storedContractByHash s => s.toBytes
  | .storedContractByName s => s.toBytes
  | .storedVersionedContractByHash s => s.toBytes
  | .storedVersionedContractByName s => s.toBytes
  | .transfer t => t.toBytes

/-! ## Tagged-union JSON wrapper -/

/-- ExecutableDeployItemJsonWrapper: six optional variant slots, at
most one of which is meant to be populated. -/
structure ExecutableDeployItemJsonWrapper where
  moduleBytes : Option ModuleBytes
  storedContractByHash : Option StoredContractByHash
  storedContractByName : Option StoredContractByName
  storedVersionedContractByHash : Option StoredVersionedContractByHash
  storedVersionedContractByName : Option StoredVersionedContractByName
  transfer : Option Transfer

/-- Predicate isModuleBytes of the wrapper. -/
def ExecutableDeployItemJsonWrapper.isModuleBytes
    (w : ExecutableDeployItemJsonWrapper) : Bool :=
  w.moduleBytes.isSome

/-- Predicate isStoredContractByHash of the wrapper. -/
def ExecutableDeployItemJsonWrapper.isStoredContractByHash
    (w : ExecutableDeployItemJsonWrapper) : Bool :=
  w.storedContractByHash.isSome

/-- Predicate isStoredContractByName of the wrapper. -/
def ExecutableDeployItemJsonWrapper.isStoredContractByName
    (w : ExecutableDeployItemJsonWrapper) : Bool :=
  w.storedContractByName.isSome

/-- Predicate isStoredVersionContractByHash of the wrapper. -/
def ExecutableDeployItemJsonWrapper.isStoredVersionContractByHash
    (w : ExecutableDeployItemJsonWrapper) : Bool :=
  w.storedVersionedContractByHash.isSome

/-- Predicate isStoredVersionContractByName of the wrapper. -/
def ExecutableDeployItemJsonWrapper.isStoredVersionContractByName
    (w : ExecutableDeployItemJsonWrapper) : Bool :=
  w.storedVersionedContractByName.isSome

/-- Predicate isTransfer of the wrapper. -/
def ExecutableDeployItemJsonWrapper.isTransfer
    (w : ExecutableDeployItemJsonWrapper) : Bool :=
  w.transfer.isSome

/-- The wrapper's toBytes: the if-chain of the source, dispatching to
the first populated slot in declaration order and failing only when
every slot is empty. -/
def ExecutableDeployItemJsonWrapper.toBytes
    (w : ExecutableDeployItemJsonWrapper) : Except String Bytes :=
  match w.moduleBytes with
  | some m => Except.ok m.toBytes
  | none =>
  match w.storedContractByHash with
  | some s => Except.ok s.toBytes
  | none =>
  match w.storedContractByName with
  | some s => Except.ok s.toBytes
  | none =>
  match w.storedVersionedContractByHash with
  | some s => Except.ok s.toBytes
  | none =>
  match w.storedVersionedContractByName with
  | some s => Except.ok s.toBytes
  | none =>
  match w.transfer with
  | some t => Except.ok t.toBytes
  | none => Except.error "failed to serialize ExecutableDeployItemJsonWrapper"

/-- fromExecutionDeployItem: routes an execution item into the slot
selected by its tag. -/
def ExecutableDeployItemJsonWrapper.fromExecutionDeployItem
    (item : ExecutableDeployItem) : ExecutableDeployItemJsonWrapper :=
  match item with
  | .moduleBytes m =>
    ExecutableDeployItemJsonWrapper.mk (some m) none none none none none
  | .storedContractByHash s =>
    ExecutableDeployItemJsonWrapper.mk none (some s) none none none none
  | .storedContractByName s =>
    ExecutableDeployItemJsonWrapper.mk none none (some s) none none none
  | .storedVersionedContractByHash s =>
    ExecutableDeployItemJsonWrapper.mk none none none (some s) none none
  | .storedVersionedContractByName s =>
    ExecutableDeployItemJsonWrapper.mk none none none none (some s) none
  | .transfer t =>
    ExecutableDeployItemJsonWrapper.mk none none none none none (some t)

/-- The static factory newStoredContractByHash of the wrapper, which in
the source constructs a StoredVersionedContractByHash from its
arguments. -/
def ExecutableDeployItemJsonWrapper.newStoredContractByHash (hash : Bytes)
    (version : Option Nat) (entryPoint : Bytes) (args : RuntimeArgs) :
    ExecutableDeployItemJsonWrapper :=
  ExecutableDeployItemJsonWrapper.fromExecutionDeployItem
    (ExecutableDeployItem.storedVersionedContractByHash
      (StoredVersionedContractByHash.mk hash version entryPoint args))

/-- Number of populated variant slots of a wrapper. -/
def populatedSlotCount (w : ExecutableDeployItemJsonWrapper) : Nat :=
  (if w.moduleBytes.isSome then 1 else 0) +
  (if w.storedContractByHash.isSome then 1 else 0) +
  (if w.storedContractByName.isSome then 1 else 0) +
  (if w.storedVersionedContractByHash.isSome then 1 else 0) +
  (if w.storedVersionedContractByName.isSome then 1 else 0) +
  (if w.transfer.isSome then 1 else 0)

/-! ## Header, deploy, assembly and signing -/

/-- DeployHeader: the six-field deploy header.  The chain name is
modelled by its UTF-8 byte list. -/
structure DeployHeader where
  account : PublicKey
  timestamp : Nat
  ttl : Nat
  gasPrice : Nat
  bodyHash : Bytes
  dependencies : List Bytes
  chainName : Bytes

/-- DeployHeader.toBytes: the canonical header encoding, the account
key's encoding, three u64 fields, the raw body hash, the dependency
vector and the chain-name string, concatenated in field order. -/
def DeployHeader.toBytes (h : DeployHeader) : Bytes :=
  h.account.toBytes ++
    toBytesU64 h.timestamp ++
    toBytesU64 h.ttl ++
    toBytesU64 h.gasPrice ++
    toBytesDeployHash h.bodyHash ++
    toBytesVecT (fun d => toBytesDeployHash d) h.dependencies ++
    toBytesString h.chainName

/-- Approval: an algorithm-tagged signer rendering paired with an
algorithm-tagged signature rendering. -/
structure Approval where
  signer : List Nat
  signature : List Nat

/-- Deploy: hash, header, payment and session wrappers, and the
ordered approvals list. -/
structure Deploy where
  hash : Bytes
  header : DeployHeader
  payment : ExecutableDeployItemJsonWrapper
  session : ExecutableDeployItemJsonWrapper
  approvals : List Approval

/-- serializeHeader: the header's own encoding. -/
def serializeHeader (deployHeader : DeployHeader) : Bytes :=
  deployHeader.toBytes

/-- serializeBody: the payment item's encoding followed by the session
item's encoding, payment first. -/
def serializeBody (payment session : ExecutableDeployItemJsonWrapper) :
    Except String Bytes := do
  let paymentBytes ← payment.toBytes
  let sessionBytes ← session.toBytes
  pure (paymentBytes ++ sessionBytes)

/-- DeployParams after construction: the account key, chain name, gas
price, ttl, filtered dependencies and resolved timestamp. -/
structure DeployParams where
  accountPublicKey : PublicKey
  chainName : Bytes
  gasPrice : Nat
  ttl : Nat
  dependencies : List Bytes
  timestamp : Nat

/-- The DeployParams constructor: keeps only the dependencies whose
base-16 rendering occurs fewer than two times in the input list, and
resolves a missing or falsy (zero) timestamp to the current time,
passed here explicitly as the argument now. -/
def DeployParams.make (accountPublicKey : PublicKey) (chainName : Bytes)
    (gasPrice : Nat) (ttl : Nat) (dependencies : List Bytes)
    (timestamp : Option Nat) (now : Nat) : DeployParams :=
  let deps := dependencies.filter
    (fun d =>
      (dependencies.filter
        (fun t => encodeBase16 d == encodeBase16 t)).length < 2)
  let ts :=
    match timestamp with
    | none => now
    | some t => if t = 0 then now else t
  DeployParams.mk accountPublicKey chainName gasPrice ttl deps ts

/-- makeDeploy: serializes the body (payment first), hashes it with the
external 32-byte digest (blake2b in the source, passed here as the
function digest), builds the header around the body hash, hashes the
serialized header into the deploy hash, and assembles the deploy with
an empty approvals list. -/
def makeDeploy (digest : Bytes → Bytes) (deployParam : DeployParams)
    (session payment : ExecutableDeployItemJsonWrapper) :
    Except String Deploy := do
  let serializedBody ← serializeBody payment session
  let bodyHash := digest serializedBody
  let header := DeployHeader.mk deployParam.accountPublicKey
    deployParam.timestamp deployParam.ttl deployParam.gasPrice bodyHash
    deployParam.dependencies deployParam.chainName
  let serializedHeader := serializeHeader header
  let deployHash := digest serializedHeader
  pure (Deploy.mk deployHash header payment session [])

/-- signDeploy: signs the deploy hash with the key's signing primitive,
renders signer and signature algorithm-tagged, appends the approval and
returns the updated deploy. -/
def signDeploy (deploy : Deploy) (signingKey : AsymmetricKey) : Deploy :=
  let signature := signingKey.signFn deploy.hash
  let approval := Approval.mk signingKey.publicKey.toAccountHex
    (accountHexOf signingKey.publicKey.alg signature)
  Deploy.mk deploy.hash deploy.header deploy.payment deploy.session
    (deploy.approvals ++ [approval])

/-- setSignature: appends an approval built from an externally produced
signature, with no verification, and returns the updated deploy. -/
def setSignature (deploy : Deploy) (sig : Bytes) (publicKey : PublicKey) :
    Deploy :=
  let approval := Approval.mk publicKey.toAccountHex
    (accountHexOf publicKey.alg sig)
  Deploy.mk deploy.hash deploy.header deploy.payment deploy.session
    (deploy.approvals ++ [approval])

/-- One signing call: either signDeploy with a key pair or setSignature
with an external signature and public key. -/
inductive SignOp where
  | sign (key : AsymmetricKey)
  | set (sig : Bytes) (publicKey : PublicKey)

/-- Apply one signing call to a deploy. -/
def applySignOp (d : Deploy) : SignOp → Deploy
  | .sign key => signDeploy d key
  | .set sig pk => setSignature d sig pk

/-- Apply a sequence of signing calls in order. -/
def applySignOps (d : Deploy) (ops : List SignOp) : Deploy :=
  ops.foldl applySignOp d

/-- The approval a signing call produces for a given deploy hash. -/
def SignOp.approvalOf (h : Bytes) : SignOp → Approval
  | .sign key =>
    Approval.mk key.publicKey.toAccountHex
      (accountHexOf key.publicKey.alg (key.signFn h))
  | .set sig pk =>
    Approval.mk pk.toAccountHex (accountHexOf pk.alg sig)

/-! ## Spec-side layout definitions (for the refinement claims)

The following definitions restate the wire layout in the spec's own
words (section 4.1 and the variant table of section 4.3) so that the
code's encoders can be proved to refine them. -/

/-- Spec wording: a variable-length byte sequence is length-prefixed
with an unsigned 32-bit count followed by the raw bytes. -/
def specLengthPrefixed (bs : Bytes) : Bytes :=
  toBytesLE 4 bs.length ++ bs

/-- Spec wording: an optional 32-bit version, a presence byte followed
by the 32-bit little-endian value when present. -/
def specVersionBytes : Option Nat → Bytes
  | none => [0]
  | some n => 1 :: toBytesLE 4 n

/-- Spec wording of the header layout: the account key's own encoding,
three 64-bit little-endian integers, the raw 32-byte body hash, the
dependencies as an unsigned 32-bit count followed by each hash raw in
order, and the chain name as an unsigned 32-bit byte-length prefix
followed by its UTF-8 bytes. -/
def specHeaderBytes (h : DeployHeader) : Bytes :=
  h.account.toBytes ++
    toBytesLE 8 h.timestamp ++
    toBytesLE 8 h.ttl ++
    toBytesLE 8 h.gasPrice ++
    h.bodyHash ++
    (toBytesLE 4 h.dependencies.length ++ h.dependencies.flatMap (fun d => d)) ++
    (toBytesLE 4 h.chainName.length ++ h.chainName)

/-- Spec wording of the execution-item layout table: one discriminant
byte per variant followed by that variant's fields in fixed order. -/
def specItemBytes : ExecutableDeployItem → Bytes
  | .moduleBytes m =>
    0 :: (specLengthPrefixed m.moduleBytes ++
      specLengthPrefixed m.args.toBytes)
  | .storedContractByHash s =>
    1 :: (s.hash ++ specLengthPrefixed s.entryPoint ++
      specLengthPrefixed s.args.toBytes)
  | .storedContractByName s =>
    2 :: (specLengthPrefixed s.name ++ specLengthPrefixed s.entryPoint ++
      specLengthPrefixed s.args.toBytes)
  | .storedVersionedContractByHash s =>
    3 :: (s.hash ++ specVersionBytes s.version ++
      specLengthPrefixed s.entryPoint ++ specLengthPrefixed s.args.toBytes)
  | .storedVersionedContractByName s =>
    4 :: (specLengthPrefixed s.name ++ specVersionBytes s.version ++
      specLengthPrefixed s.entryPoint ++ specLengthPrefixed s.args.toBytes)
  | .transfer t =>
    5 :: specLengthPrefixed t.args.toBytes

/-! ## Concrete fixtures for witnesses and counterexamples -/

/-- A constant 32-byte digest standing in for blake2b in witnesses. -/
def dig0 : Bytes → Bytes := fun _ => List.replicate 32 0

/-- A concrete public key with empty key material. -/
def pk0 : PublicKey := PublicKey.mk SignatureAlgorithm.ed25519 [] []

/-- An empty argument map. -/
def emptyArgs : RuntimeArgs := RuntimeArgs.mk []

/-- A concrete ModuleBytes item with empty module bytes and arguments. -/
def mb0 : ModuleBytes := ModuleBytes.mk [] emptyArgs

/-- A wrapper populating only the ModuleBytes slot. -/
def w0 : ExecutableDeployItemJsonWrapper :=
  ExecutableDeployItemJsonWrapper.mk (some mb0) none none none none none

/-- Concrete deploy parameters. -/
def params0 : DeployParams := DeployParams.mk pk0 [] 1 1 [] 7

/-- The header makeDeploy builds from params0 and two mb0 items under
the digest dig0. -/
def header0 : DeployHeader :=
  DeployHeader.mk pk0 7 1 1 (List.replicate 32 0) [] []

/-- The deploy makeDeploy builds from params0 and two mb0 items under
the digest dig0. -/
def deploy0 : Deploy := Deploy.mk (List.replicate 32 0) header0 w0 w0 []

/-- A malformed wrapper populating two slots, ModuleBytes and Transfer. -/
def wrapperTwo : ExecutableDeployItemJsonWrapper :=
  ExecutableDeployItemJsonWrapper.mk (some mb0) none none none none
    (some (Transfer.mk emptyArgs))

/-- A wrapper populating no slot at all. -/
def emptyWrapper : ExecutableDeployItemJsonWrapper :=
  ExecutableDeployItemJsonWrapper.mk none none none none none none

/-! ## Helper lemmas -/

/-- Base-16 rendering is injective: each byte is recovered from its two
hex digits. -/
theorem encodeBase16_injective (bs1 bs2 : Bytes)
    (h : encodeBase16 bs1 = encodeBase16 bs2) : bs1 = bs2 := by
  induction bs1 generalizing bs2 with
  | nil =>
    cases bs2 with
    | nil => rfl
    | cons b t => simp [encodeBase16] at h
  | cons a as ih =>
    cases bs2 with
    | nil => simp [encodeBase16] at h
    | cons b t =>
      simp only [encodeBase16, List.flatMap_cons, List.cons_append,
        List.nil_append, List.cons.injEq] at h
      obtain ⟨hdiv, hmod, hrest⟩ := h
      have ha : a = b := by
        have h16a := Nat.div_add_mod a 16
        have h16b := Nat.div_add_mod b 16
        omega
      have : as = t := ih t hrest
      simp [ha, this]

/-- Folding a sequence of signing calls appends exactly the matching
approvals, in call order, and changes no other field. -/
theorem applySignOps_eq (d : Deploy) (ops : List SignOp) :
    applySignOps d ops =
      Deploy.mk d.hash d.header d.payment d.session
        (d.approvals ++ ops.map (SignOp.approvalOf d.hash)) := by
  induction ops generalizing d with
  | nil => simp [applySignOps]
  | cons op rest ih =>
    have hstep : applySignOps d (op :: rest) =
        applySignOps (applySignOp d op) rest := rfl
    rw [hstep, ih]
    cases op with
    | sign key =>
      simp [applySignOp, signDeploy, SignOp.approvalOf]
    | set sig pk =>
      simp [applySignOp, setSignature, SignOp.approvalOf]

/-! ## Claim theorems -/

/-- C1: for all valid deploy parameters and serializable payment and
session items, makeDeploy returns a deploy whose header body hash is
the digest of the payment encoding followed by the session encoding
(payment first), whose hash is the digest of the serialized header, and
whose approvals list is empty. -/
theorem makeDeploy_hash_correct (digest : Bytes → Bytes)
    (params : DeployParams)
    (session payment : ExecutableDeployItemJsonWrapper)
    (paymentBytes sessionBytes : Bytes) (d : Deploy)
    (hp : payment.toBytes = Except.ok paymentBytes)
    (hs : session.toBytes = Except.ok sessionBytes)
    (hd : makeDeploy digest params session payment = Except.ok d) :
    d.header.bodyHash = digest (paymentBytes ++ sessionBytes)
    ∧ d.hash = digest (serializeHeader d.header)
    ∧ d.approvals = [] := by
  simp only [makeDeploy, serializeBody, hp, hs, bind, Except.bind, pure,
    Except.pure, Except.ok.injEq] at hd
  subst hd
  exact ⟨rfl, rfl, rfl⟩

/-- Witness for C1 at a concrete digest, parameters and items. -/
theorem makeDeploy_hash_correct_witness :
    deploy0.header.bodyHash = dig0 (mb0.toBytes ++ mb0.toBytes)
    ∧ deploy0.hash = dig0 (serializeHeader deploy0.header)
    ∧ deploy0.approvals = [] :=
  makeDeploy_hash_correct dig0 params0 w0 w0 mb0.toBytes mb0.toBytes
    deploy0 rfl rfl rfl

/-- C2: the header encoding is exactly the account key's own encoding,
the timestamp, ttl and gas price as 64-bit little-endian integers, the
body hash raw without a length prefix, the dependencies as an unsigned
32-bit count followed by each hash raw in list order, and the chain
name as an unsigned 32-bit byte-length prefix followed by its UTF-8
bytes. -/
theorem deployHeader_toBytes_layout (h : DeployHeader) :
    h.toBytes = specHeaderBytes h := by
  simp [DeployHeader.toBytes, specHeaderBytes, toBytesU64, toBytesU32,
    toBytesDeployHash, toBytesBytesArray, toBytesVecT, toBytesString,
    List.append_assoc]

/-- C3: every execution-item variant encodes as its discriminant byte
(ModuleBytes 0, StoredContractByHash 1, StoredContractByName 2,
StoredVersionedContractByHash 3, StoredVersionedContractByName 4,
Transfer 5) followed by its fields in the fixed order of the spec's
table. -/
theorem executableDeployItem_toBytes_layout (item : ExecutableDeployItem) :
    item.toBytes = specItemBytes item := by
  cases item with
  | moduleBytes m =>
    simp [ExecutableDeployItem.toBytes, specItemBytes, ModuleBytes.toBytes,
      ModuleBytes.tag, toBytesArrayU8, toBytesU32, specLengthPrefixed]
  | storedContractByHash s =>
    simp [ExecutableDeployItem.toBytes, specItemBytes,
      StoredContractByHash.toBytes, StoredContractByHash.tag,
      toBytesArrayU8, toBytesU32, toBytesString, toBytesBytesArray,
      specLengthPrefixed, List.append_assoc]
  | storedContractByName s =>
    simp [ExecutableDeployItem.toBytes, specItemBytes,
      StoredContractByName.toBytes, StoredContractByName.tag,
      toBytesArrayU8, toBytesU32, toBytesString, specLengthPrefixed,
      List.append_assoc]
  | storedVersionedContractByHash s =>
    cases hv : s.version with
    | none =>
      simp [ExecutableDeployItem.toBytes, specItemBytes,
        StoredVersionedContractByHash.toBytes,
        StoredVersionedContractByHash.tag, hv, CLOption.toBytes,
        OPTION_TAG_NONE, specVersionBytes, toBytesArrayU8, toBytesU32,
        toBytesString, toBytesBytesArray, specLengthPrefixed,
        List.append_assoc]
    | some v =>
      simp [ExecutableDeployItem.toBytes, specItemBytes,
        StoredVersionedContractByHash.toBytes,
        StoredVersionedContractByHash.tag, hv, CLOption.toBytes,
        OPTION_TAG_SOME, CLTypedAndToBytes.toBytes, specVersionBytes,
        toBytesArrayU8, toBytesU32, toBytesString, toBytesBytesArray,
        specLengthPrefixed, List.append_assoc]
  | storedVersionedContractByName s =>
    cases hv : s.version with
    | none =>
      simp [ExecutableDeployItem.toBytes, specItemBytes,
        StoredVersionedContractByName.toBytes,
        StoredVersionedContractByName.tag, hv, CLOption.toBytes,
        OPTION_TAG_NONE, specVersionBytes, toBytesArrayU8, toBytesU32,
        toBytesString, specLengthPrefixed, List.append_assoc]
    | some v =>
      simp [ExecutableDeployItem.toBytes, specItemBytes,
        StoredVersionedContractByName.toBytes,
        StoredVersionedContractByName.tag, hv, CLOption.toBytes,
        OPTION_TAG_SOME, CLTypedAndToBytes.toBytes, specVersionBytes,
        toBytesArrayU8, toBytesU32, toBytesString, specLengthPrefixed,
        List.append_assoc]
  | transfer t =>
    simp [ExecutableDeployItem.toBytes, specItemBytes, Transfer.toBytes,
      Transfer.tag, toBytesArrayU8, toBytesU32, specLengthPrefixed]

/-- C4 counterexample: a wrapper with two populated slots (ModuleBytes
and Transfer) encodes successfully rather than failing, refuting the
claim that more than one populated slot fails to encode. -/
theorem wrapper_two_slots_encodes :
    populatedSlotCount wrapperTwo = 2
    ∧ wrapperTwo.toBytes = Except.ok mb0.toBytes :=
  And.intro rfl rfl

/-- C4 amended: the wrapper's toBytes fails exactly when no slot is
populated; when at least one slot is populated it returns the bytes of
the first populated slot in declaration order, so with exactly one
populated slot it returns that variant's own toBytes. -/
theorem wrapper_toBytes_dispatch (w : ExecutableDeployItemJsonWrapper) :
    (populatedSlotCount w = 0 →
      w.toBytes = Except.error "failed to serialize ExecutableDeployItemJsonWrapper")
    ∧ (∀ m, w.moduleBytes = some m → w.toBytes = Except.ok m.toBytes)
    ∧ (∀ s, w.storedContractByHash = some s → w.moduleBytes = none →
        w.toBytes = Except.ok s.toBytes)
    ∧ (∀ s, w.storedContractByName = some s → w.moduleBytes = none →
        w.storedContractByHash = none → w.toBytes = Except.ok s.toBytes)
    ∧ (∀ s, w.storedVersionedContractByHash = some s → w.moduleBytes = none →
        w.storedContractByHash = none → w.storedContractByName = none →
        w.toBytes = Except.ok s.toBytes)
    ∧ (∀ s, w.storedVersionedContractByName = some s → w.moduleBytes = none →
        w.storedContractByHash = none → w.storedContractByName = none →
        w.storedVersionedContractByHash = none →
        w.toBytes = Except.ok s.toBytes)
    ∧ (∀ t, w.transfer = some t → w.moduleBytes = none →
        w.storedContractByHash = none → w.storedContractByName = none →
        w.storedVersionedContractByHash = none →
        w.storedVersionedContractByName = none →
        w.toBytes = Except.ok t.toBytes) := by
  obtain ⟨mb, sch, scn, svh, svn, tr⟩ := w
  cases mb <;> cases sch <;> cases scn <;> cases svh <;> cases svn <;>
    cases tr <;>
    simp [populatedSlotCount, ExecutableDeployItemJsonWrapper.toBytes]

/-- Witness for C4 amended: the empty wrapper fails to encode, and a
wrapper whose only populated slot is ModuleBytes encodes to that item's
bytes. -/
theorem wrapper_toBytes_dispatch_witness :
    emptyWrapper.toBytes =
      Except.error "failed to serialize ExecutableDeployItemJsonWrapper"
    ∧ w0.toBytes = Except.ok mb0.toBytes :=
  And.intro ((wrapper_toBytes_dispatch emptyWrapper).1 rfl)
    ((wrapper_toBytes_dispatch w0).2.1 mb0 rfl)

/-- C5: the DeployParams constructor stores exactly the input
dependencies whose value occurs fewer than two times in the input, in
input order; every occurrence of a value appearing two or more times is
removed. -/
theorem deployParams_dependencies_filter (pk : PublicKey)
    (chainName : Bytes) (gasPrice ttl : Nat) (dependencies : List Bytes)
    (timestamp : Option Nat) (now : Nat) :
    (DeployParams.make pk chainName gasPrice ttl dependencies timestamp
        now).dependencies
      = dependencies.filter (fun d => dependencies.count d < 2) := by
  show dependencies.filter
      (fun d =>
        (dependencies.filter
          (fun t => encodeBase16 d == encodeBase16 t)).length < 2)
    = dependencies.filter (fun d => dependencies.count d < 2)
  apply List.filter_congr
  intro d _
  have hcount : (dependencies.filter
      (fun t => encodeBase16 d == encodeBase16 t)).length
      = dependencies.count d := by
    have hfeq : dependencies.filter (fun t => encodeBase16 d == encodeBase16 t)
        = dependencies.filter (fun t => t == d) := by
      apply List.filter_congr
      intro t _
      by_cases hdt : t = d
      · subst hdt
        simp
      · have hne : encodeBase16 d ≠ encodeBase16 t := by
          intro hc
          exact hdt (encodeBase16_injective t d hc.symm)
        simp [hdt, hne]
    rw [hfeq, List.count, List.countP_eq_length_filter]
  simp [hcount]

/-- C6: constructing a Transfer with no target fails with the
invalid-argument error, while constructing one with only an amount and
a target succeeds and stores an explicit absent optional u64 under the
id key of its argument map. -/
theorem transfer_target_required_id_none :
    (∀ (amount : Nat) (sourcePurse : Option URef) (id : Option Nat),
      Transfer.make amount none sourcePurse id =
        Except.error "Please specify target")
    ∧ (∀ (amount : Nat) (tgt : TransferTarget),
      (Transfer.make amount (some tgt) none none).map
          (fun tr => tr.args.get "id")
        = Except.ok (some (CLValue.option none CLType.u64))) := by
  constructor
  · intro amount sourcePurse id
    cases sourcePurse <;> rfl
  · intro amount tgt
    cases tgt <;> rfl

/-- C7: the optional-value encoder encodes absence as the single byte 0
and presence as the byte 1 followed by the wrapped value's own
encoding, and its constructor fails when the value is absent and no
type descriptor was supplied. -/
theorem clOption_encoding :
    (∀ (innerType : Option CLType) (v : CLTypedAndToBytes),
      CLOption.make (some v) innerType =
        Except.ok (CLOption.mk (some v) v.clType))
    ∧ (∀ ty : CLType,
      CLOption.make none (some ty) = Except.ok (CLOption.mk none ty))
    ∧ CLOption.make none none =
        Except.error "You had to assign innerType for None"
    ∧ (∀ ty : CLType, (CLOption.mk none ty).toBytes = [0])
    ∧ (∀ (v : CLTypedAndToBytes) (ty : CLType),
      (CLOption.mk (some v) ty).toBytes = 1 :: v.toBytes) :=
  ⟨fun _ _ => rfl, fun _ => rfl, rfl, fun _ => rfl, fun _ _ => rfl⟩

/-- C8: a sequence of signDeploy and setSignature calls appends exactly
one approval per call, in call order, leaving the hash, header, payment
and session of the deploy unchanged, so starting from an empty
approvals list N calls leave exactly N approvals. -/
theorem signing_appends_in_order (d : Deploy) (ops : List SignOp) :
    (applySignOps d ops).approvals =
        d.approvals ++ ops.map (SignOp.approvalOf d.hash)
    ∧ (applySignOps d ops).approvals.length =
        d.approvals.length + ops.length
    ∧ (applySignOps d ops).hash = d.hash
    ∧ (applySignOps d ops).header = d.header
    ∧ (applySignOps d ops).payment = d.payment
    ∧ (applySignOps d ops).session = d.session := by
  rw [applySignOps_eq]
  exact ⟨rfl, by simp, rfl, rfl, rfl, rfl⟩

/-- C9: the factory newStoredContractByHash populates the
storedVersionedContractByHash slot with a StoredVersionedContractByHash
built from its arguments, leaves the storedContractByHash slot empty so
isStoredContractByHash is false, and the wrapper encodes to the
versioned item's bytes, whose first byte is the discriminant 3. -/
theorem newStoredContractByHash_stores_versioned (hash : Bytes)
    (version : Option Nat) (entryPoint : Bytes) (args : RuntimeArgs) :
    (ExecutableDeployItemJsonWrapper.newStoredContractByHash hash version
        entryPoint args).storedVersionedContractByHash
      = some (StoredVersionedContractByHash.mk hash version entryPoint args)
    ∧ (ExecutableDeployItemJsonWrapper.newStoredContractByHash hash version
        entryPoint args).storedContractByHash = none
    ∧ (ExecutableDeployItemJsonWrapper.newStoredContractByHash hash version
        entryPoint args).isStoredContractByHash = false
    ∧ (ExecutableDeployItemJsonWrapper.newStoredContractByHash hash version
        entryPoint args).toBytes
      = Except.ok
          (StoredVersionedContractByHash.mk hash version entryPoint
            args).toBytes
    ∧ (StoredVersionedContractByHash.mk hash version entryPoint
        args).toBytes.head? = some 3 :=
  ⟨rfl, rfl, rfl, rfl, rfl⟩

/-- C10: a Transfer constructed with the supplied id zero stores the
absent optional u64 under the id key, identically to the case of an
omitted id, so a present optional containing zero is never stored. -/
theorem transfer_id_zero_stored_as_none :
    ∀ (amount : Nat) (tgt : TransferTarget) (sourcePurse : Option URef),
      Transfer.make amount (some tgt) sourcePurse (some 0)
          = Transfer.make amount (some tgt) sourcePurse none
      ∧ (Transfer.make amount (some tgt) sourcePurse (some 0)).map
            (fun tr => tr.args.get "id")
          = Except.ok (some (CLValue.option none CLType.u64)) := by
  intro amount tgt sourcePurse
  cases tgt <;> cases sourcePurse <;> exact ⟨rfl, rfl⟩

end Casper
